import Mathlib

/-!
Verification development for the Nakama match-handler module
(`docker-service`): AOI spatial grid, movement wire codecs, join
admission, and the legacy anti-cheat position-validation logic of
`matchLoop`.

Conventions of the embedding:
* JavaScript numbers are modelled as `ℚ` (all arithmetic in the module
  is exact on the inputs of interest); timestamps (`Date.now()`) are `ℚ`
  milliseconds.
* `ArrayBuffer`s are `List ℕ`, one entry per byte.
* JavaScript plain objects used as maps are modelled as functions into
  `Option`/`List` (when only lookup is needed) or as association lists
  (when key enumeration such as `Object.keys` is needed).
* The source computes `distance = Math.sqrt(dx*dx + dy*dy)` and compares
  it with the nonnegative thresholds `5`, `maxAllowed` and `1000`.
  Since `Real.sqrt` is monotone and those thresholds are nonnegative,
  `Real.sqrt d ≤ t ↔ d ≤ t*t` (for `0 ≤ t`), so the embedding performs
  the equivalent squared comparisons (see `sqrt_le_iff_sq` below).
-/

-- ============================================================================
-- Constants (src/unnamed/part_001, lines 13-37)
-- ============================================================================

def AOI_CELL_SIZE : ℚ := 200

def AOI_RADIUS : ℚ := 600

def OP_PLAYER_MOVE : ℕ := 1

def OP_PLAYER_STATE : ℕ := 2

def OP_MAP_CHANGE : ℕ := 3

def OP_PLAYER_INPUT : ℕ := 4

def OP_SERVER_POSITION : ℕ := 5

def WALK_SPEED : ℚ := 80

def RUN_SPEED : ℚ := 160

def MAX_SPEED_TOLERANCE : ℚ := 12 / 10

def DIR_NONE : ℕ := 4

/-- The per-tick delta time of `matchLoop`: `1.0 / 20` seconds. -/
def tickDt : ℚ := 1 / 20

/-- The anti-cheat envelope of `matchLoop`:
`maxAllowed = RUN_SPEED * tickDt * MAX_SPEED_TOLERANCE * 10`. -/
def maxAllowed : ℚ := RUN_SPEED * tickDt * MAX_SPEED_TOLERANCE * 10

-- ============================================================================
-- Byte-level helpers for the wire codecs
-- ============================================================================

/-- `Math.round` of JavaScript: round half toward positive infinity. -/
def jsRound (q : ℚ) : ℤ := ⌊q + 1 / 2⌋

/-- The 16-bit two's-complement store performed by `DataView.setInt16`:
the written unsigned 16-bit pattern is the value mod `2^16`. -/
def toUint16 (v : ℤ) : ℕ := (v % 65536).toNat

/-- The signed read performed by `DataView.getInt16` from an unsigned
16-bit pattern. -/
def fromInt16 (u : ℕ) : ℤ := if u < 32768 then (u : ℤ) else (u : ℤ) - 65536

/-- Little-endian signed 16-bit read from two bytes (`DataView.getInt16`
with `littleEndian = true`). -/
def getInt16LE (b0 b1 : ℕ) : ℤ := fromInt16 (b0 % 256 + 256 * (b1 % 256))

/-- IEEE-754 binary32 little-endian read (`DataView.getFloat32`) as an
exact rational. Infinities and NaNs (exponent field 255) have no rational
value; they are mapped to `0` — no claim in this development depends on
those bit patterns. -/
def getFloat32LE (b0 b1 b2 b3 : ℕ) : ℚ :=
  let bits : ℕ := b0 % 256 + 256 * (b1 % 256) + 65536 * (b2 % 256) + 16777216 * (b3 % 256)
  let sign : ℕ := bits / 2 ^ 31
  let expo : ℕ := bits / 2 ^ 23 % 256
  let frac : ℕ := bits % 2 ^ 23
  let mag : ℚ :=
    if expo = 0 then (frac : ℚ) / 2 ^ 23 * (2 : ℚ) ^ (-126 : ℤ)
    else if expo = 255 then 0
    else (1 + (frac : ℚ) / 2 ^ 23) * (2 : ℚ) ^ ((expo : ℤ) - 127)
  if sign = 1 then -mag else mag

-- ============================================================================
-- MovementCodec (src/unnamed/part_001, lines 91-134)
-- ============================================================================

/-- `encodeServerPosition` (version 4, 9 bytes):
`[version(1), x(2 LE), y(2 LE), direction(1), flags(1), sequence(1), reserved(1)]`
with `x`/`y` stored as `setInt16(Math.round(·))`, `direction & 0x07`,
flags bit 0 = `isRunning`, bit 1 = `collided`, `sequence & 0xff`. -/
def encodeServerPosition (x y : ℚ) (direction : ℕ) (isRunning : Bool)
    (sequence : ℕ) (collided : Bool) : List ℕ :=
  let xb := toUint16 (jsRound x)
  let yb := toUint16 (jsRound y)
  let flags := (if isRunning then 1 else 0) + (if collided then 2 else 0)
  [4, xb % 256, xb / 256, yb % 256, yb / 256, direction % 8, flags, sequence % 256, 0]

/-- Decoded result of `decodePlayerInput`. -/
structure PlayerInput where
  direction : ℕ
  isRunning : Bool
  sequence : ℕ
  deriving DecidableEq

/-- `decodePlayerInput` (version 3, 4 bytes):
returns `none` for buffers shorter than 4 bytes or with a version tag
other than `3`; otherwise reads direction (offset 1), the running flag as
`getUint8(2) === 1`, and the sequence byte (offset 3). -/
def decodePlayerInput (data : List ℕ) : Option PlayerInput :=
  if data.length < 4 then none
  else if data.getD 0 0 ≠ 3 then none
  else some ⟨data.getD 1 0, decide (data.getD 2 0 = 1), data.getD 3 0⟩

/-- The fields of the legacy `parsedData` object of `matchLoop` once the
guard `parsedData.x !== undefined && parsedData.y !== undefined` has
passed: `x`/`y` present, `d`/`r`/`c` possibly `undefined`. -/
structure LegacyParsed where
  x : ℚ
  y : ℚ
  d : Option ℕ
  r : Option Bool
  c : Option Bool
  deriving DecidableEq

/-- The binary branch of legacy position decoding in `matchLoop`
(lines 850-873), reached when the buffer is not parsed as JSON (the
string/JSON attempt throws): a buffer of length ≥ 7 with leading byte 2
is read with the v2 layout (int16 LE x/y at 1/3, direction at 5, flags
at 6 with bit 0 = running, bit 1 = collided); otherwise a buffer of
length ≥ 10 is read with the v1 layout (float32 LE x/y at 0/4, direction
at 8, running as `getUint8(9) === 1`, no collision flag); anything else
yields no parse. -/
def decodeLegacyBinary (data : List ℕ) : Option LegacyParsed :=
  if 7 ≤ data.length ∧ data.getD 0 0 = 2 then
    some { x := (getInt16LE (data.getD 1 0) (data.getD 2 0) : ℚ),
           y := (getInt16LE (data.getD 3 0) (data.getD 4 0) : ℚ),
           d := some (data.getD 5 0),
           r := some (decide (data.getD 6 0 % 2 = 1)),
           c := some (decide (data.getD 6 0 / 2 % 2 ≠ 0)) }
  else if 10 ≤ data.length then
    some { x := getFloat32LE (data.getD 0 0) (data.getD 1 0) (data.getD 2 0) (data.getD 3 0),
           y := getFloat32LE (data.getD 4 0) (data.getD 5 0) (data.getD 6 0) (data.getD 7 0),
           d := some (data.getD 8 0),
           r := some (decide (data.getD 9 0 = 1)),
           c := some false }
  else none

/-- Decoded v4 server-position frame, as documented. -/
structure ServerPosition where
  x : ℤ
  y : ℤ
  direction : ℕ
  isRunning : Bool
  collided : Bool
  sequence : ℕ
  deriving DecidableEq

/-- Modelled from the spec: the v4 server-position decoder lives in the
Flutter client, which is not part of this repository; only the encoder
(`encodeServerPosition`) is. Per the documented layout (§4.2 of the
spec): version tag `4`, 16-bit little-endian x then y, direction byte,
a flags byte with bit 0 = running and bit 1 = collided, an 8-bit
sequence number, one reserved byte. -/
def decodeServerPosition (data : List ℕ) : Option ServerPosition :=
  if data.length < 9 then none
  else if data.getD 0 0 ≠ 4 then none
  else
    some { x := getInt16LE (data.getD 1 0) (data.getD 2 0),
           y := getInt16LE (data.getD 3 0) (data.getD 4 0),
           direction := data.getD 5 0,
           isRunning := decide (data.getD 6 0 % 2 = 1),
           collided := decide (data.getD 6 0 / 2 % 2 = 1),
           sequence := data.getD 7 0 }

-- ============================================================================
-- AOI Grid (src/unnamed/part_001, lines 141-230)
-- ============================================================================

/-- The AOI grid. In the source the forward index `cells` is a plain
object keyed by the string `cellX + ',' + cellY`; since that encoding of
the integer pair is injective, cell keys are modelled as `ℤ × ℤ`. Cell
member sets are objects with boolean values, modelled as duplicate-free
lists; an absent cell and an empty member object are observationally
identical (the source deletes cells that become empty), so `cells` maps
every key to a (possibly empty) list. The reverse index `playerCells`
maps a player to its current cell key. -/
structure AOIGridType where
  cells : ℤ × ℤ → List String
  playerCells : String → Option (ℤ × ℤ)
  cellSize : ℚ

/-- `createAOIGrid`: empty forward and reverse indices. -/
def createAOIGrid (cellSize : ℚ := AOI_CELL_SIZE) : AOIGridType :=
  { cells := fun _ => [], playerCells := fun _ => none, cellSize := cellSize }

/-- `aoiGetCellKey`: `(Math.floor(x / cellSize), Math.floor(y / cellSize))`. -/
def aoiGetCellKey (grid : AOIGridType) (x y : ℚ) : ℤ × ℤ :=
  (⌊x / grid.cellSize⌋, ⌊y / grid.cellSize⌋)

/-- Setting a key in a JS object used as a set: a no-op when the key is
already present, otherwise appended. -/
def objInsert (l : List String) (k : String) : List String :=
  if k ∈ l then l else l ++ [k]

/-- The forward-index effect of `delete grid.cells[cell][userId]`
(removing the member at one cell; JS deletion of a cell that then
becomes empty is observationally the empty member set). -/
def eraseCell (cells : ℤ × ℤ → List String) (cell : ℤ × ℤ) (userId : String) :
    ℤ × ℤ → List String :=
  fun c => if c = cell then (cells cell).erase userId else cells c

/-- The forward-index effect of `grid.cells[cell][userId] = true`. -/
def insertCell (cells : ℤ × ℤ → List String) (cell : ℤ × ℤ) (userId : String) :
    ℤ × ℤ → List String :=
  fun c => if c = cell then objInsert (cells cell) userId else cells c

/-- `aoiUpdatePlayer`: no-op when the player's cell is unchanged;
otherwise removes the player from its old cell (if any) and inserts it
into the new cell, updating the reverse index. -/
def aoiUpdatePlayer (grid : AOIGridType) (userId : String) (x y : ℚ) : AOIGridType :=
  let newCell := aoiGetCellKey grid x y
  match grid.playerCells userId with
  | some oldCell =>
      if oldCell = newCell then grid
      else
        { grid with
          cells := insertCell (eraseCell grid.cells oldCell userId) newCell userId,
          playerCells := fun u => if u = userId then some newCell else grid.playerCells u }
  | none =>
      { grid with
        cells := insertCell grid.cells newCell userId,
        playerCells := fun u => if u = userId then some newCell else grid.playerCells u }

/-- `aoiRemovePlayer`: deletes the player from its current cell (if any)
and from the reverse index. -/
def aoiRemovePlayer (grid : AOIGridType) (userId : String) : AOIGridType :=
  { grid with
    cells :=
      match grid.playerCells userId with
      | some cell => eraseCell grid.cells cell userId
      | none => grid.cells,
    playerCells := fun u => if u = userId then none else grid.playerCells u }

/-- The inclusive integer range `[lo, hi]` (the `for (let d = lo; d <= hi; d++)`
loop index sequence). -/
def intRange (lo hi : ℤ) : List ℤ :=
  (List.range (hi + 1 - lo).toNat).map (fun i : ℕ => lo + (i : ℤ))

/-- `aoiGetPlayersInRadius`: scans the `(2*cellRadius+1)²` cells centred
on the query cell, `cellRadius = Math.ceil(radius / cellSize)`, and
collects their members, first occurrence kept (the `seen` set of the
source). -/
def aoiGetPlayersInRadius (grid : AOIGridType) (centerX centerY radius : ℚ) : List String :=
  let cellRadius := ⌈radius / grid.cellSize⌉
  let centerCellX := ⌊centerX / grid.cellSize⌋
  let centerCellY := ⌊centerY / grid.cellSize⌋
  ((intRange (-cellRadius) cellRadius).flatMap fun dx =>
    (intRange (-cellRadius) cellRadius).flatMap fun dy =>
      grid.cells (centerCellX + dx, centerCellY + dy)).foldl
    (fun acc pid => if pid ∈ acc then acc else acc ++ [pid]) []

-- ============================================================================
-- Match state (src/unnamed/part_001, lines 242-278)
-- ============================================================================

/-- Position record `{ x, y }`. -/
structure Pos where
  x : ℚ
  y : ℚ
  deriving DecidableEq

/-- `MatchPlayer` (timestamps in ℚ milliseconds). -/
structure MatchPlayer where
  userId : String
  sessionId : String
  username : String
  node : String
  joinedAt : ℚ
  currentMap : String
  lastPosition : Pos
  direction : ℕ
  isRunning : Bool
  lastInputTime : ℚ
  lastInputSequence : ℕ
  hasReceivedFirstPosition : Bool
  collided : Bool
  deriving DecidableEq

/-- `PendingUpdate` (the `data` of `new ArrayBuffer(0)` is `[]`). -/
structure PendingUpdate where
  userId : String
  opCode : ℕ
  data : List ℕ
  reliable : Bool
  deriving DecidableEq

/-- `MatchState`. `players` and `pendingUpdates` are JS objects whose
keys must be enumerable (`Object.keys(state.players).length`, the
phase-2 `for (const senderId in state.pendingUpdates)` loop), so they
are modelled as association lists with distinct keys, first match wins
on lookup. -/
structure MatchState where
  label : String
  maxPlayers : ℕ
  players : List (String × MatchPlayer)
  createdAt : ℚ
  aoiGrid : AOIGridType
  pendingUpdates : List (String × PendingUpdate)

-- ============================================================================
-- Join admission (src/unnamed/part_001, lines 636-665)
-- ============================================================================

/-- Result record of `matchJoinAttempt`. -/
structure JoinAttemptResult where
  state : MatchState
  accept : Bool
  rejectMessage : Option String

/-- `matchJoinAttempt`: rejects with `"Match is full"` when
`Object.keys(state.players).length >= state.maxPlayers`, otherwise
accepts; the state is returned unchanged in both branches. -/
def matchJoinAttempt (state : MatchState) : JoinAttemptResult :=
  let playerCount := state.players.length
  if state.maxPlayers ≤ playerCount then
    { state := state, accept := false, rejectMessage := some "Match is full" }
  else
    { state := state, accept := true, rejectMessage := none }

-- ============================================================================
-- Legacy position ingestion (src/unnamed/part_001, lines 879-986)
-- ============================================================================

/-- Squared straight-line distance `dx*dx + dy*dy` (the source takes
`Math.sqrt` of this and compares the root against nonnegative
thresholds; the embedding compares squares, see `sqrt_le_iff_sq`). -/
def sqDist (dx dy : ℚ) : ℚ := dx * dx + dy * dy

/-- Justification for the squared comparisons: for a nonnegative
threshold `t`, `√(dx² + dy²) ≤ t ↔ dx² + dy² ≤ t·t`, and likewise
strictly. -/
theorem sqrt_le_iff_sq (dx dy t : ℚ) (ht : 0 ≤ t) :
    (Real.sqrt ((sqDist dx dy : ℚ)) ≤ (t : ℝ) ↔ sqDist dx dy ≤ t * t) ∧
    (Real.sqrt ((sqDist dx dy : ℚ)) < (t : ℝ) ↔ sqDist dx dy < t * t) := by
  have h0q : (0 : ℚ) ≤ sqDist dx dy :=
    add_nonneg (mul_self_nonneg dx) (mul_self_nonneg dy)
  have h0 : (0 : ℝ) ≤ ((sqDist dx dy : ℚ) : ℝ) := by exact_mod_cast h0q
  have ht' : (0 : ℝ) ≤ (t : ℝ) := by exact_mod_cast ht
  constructor
  · rw [Real.sqrt_le_left ht', sq]
    norm_cast
  · rw [Real.sqrt_lt h0 ht', sq]
    norm_cast

/-- The stale/desync reset of `matchLoop` (lines 894-906): when the
stored last position has a negative coordinate, or more than 5000 ms
have passed since the last input, or the claimed distance exceeds 1000
(`distance > 1000`, i.e. squared distance `> 1000*1000`), the
`hasReceivedFirstPosition` flag is cleared. -/
def legacyStaleReset (sp : MatchPlayer) (pd : LegacyParsed) (now : ℚ) : MatchPlayer :=
  if sp.lastPosition.y < 0 ∨ sp.lastPosition.x < 0
      ∨ now - sp.lastInputTime > 5000
      ∨ sqDist (pd.x - sp.lastPosition.x) (pd.y - sp.lastPosition.y) > 1000 * 1000 then
    if sp.hasReceivedFirstPosition then { sp with hasReceivedFirstPosition := false }
    else sp
  else sp

/-- Per-message result of the legacy-position branch: the sender's
updated `MatchPlayer`, the updated AOI grid and the `PendingUpdate`
written for the sender. -/
structure LegacyResult where
  player : MatchPlayer
  grid : AOIGridType
  pending : PendingUpdate

/-- The accept branch of `matchLoop` (lines 912-949): position, and the
`d`/`r`/`c` fields when present, are taken from the update;
`lastInputTime` is refreshed; the first-position flag is set; the AOI
grid is moved to the claimed position; the broadcast is marked reliable
when the inbound message was, or when a collision was recorded. -/
def legacyAccept (sp : MatchPlayer) (grid : AOIGridType) (userId : String)
    (pd : LegacyParsed) (now : ℚ) (msgReliable : Bool) : LegacyResult :=
  let isFirstPosition := !sp.hasReceivedFirstPosition
  let sp1 : MatchPlayer :=
    { sp with lastPosition := ⟨pd.x, pd.y⟩,
              direction := pd.d.getD sp.direction,
              isRunning := pd.r.getD sp.isRunning,
              collided := pd.c.getD sp.collided,
              lastInputTime := now }
  let sp2 := if isFirstPosition then { sp1 with hasReceivedFirstPosition := true } else sp1
  { player := sp2,
    grid := aoiUpdatePlayer grid userId pd.x pd.y,
    pending := { userId := userId, opCode := OP_SERVER_POSITION, data := [],
                 reliable := msgReliable || sp2.collided } }

/-- The reject branch of `matchLoop` (lines 950-986): the claimed
position (and the grid) are still taken when the update is a stop
message (`r === false`); direction and running state always update; the
broadcast is always reliable. The collision flag is not touched. -/
def legacyReject (sp : MatchPlayer) (grid : AOIGridType) (userId : String)
    (pd : LegacyParsed) (now : ℚ) : LegacyResult :=
  let isStopMessage := pd.r = some false
  let sp1 := if isStopMessage then { sp with lastPosition := ⟨pd.x, pd.y⟩ } else sp
  let grid1 := if isStopMessage then aoiUpdatePlayer grid userId pd.x pd.y else grid
  let sp2 : MatchPlayer :=
    { sp1 with direction := pd.d.getD sp1.direction,
               isRunning := pd.r.getD sp1.isRunning,
               lastInputTime := now }
  { player := sp2, grid := grid1,
    pending := { userId := userId, opCode := OP_SERVER_POSITION, data := [],
                 reliable := true } }

/-- The whole legacy-position handling of `matchLoop` (lines 879-986)
for one parsed update from `userId` (opcode `OP_PLAYER_MOVE` or
`OP_PLAYER_STATE`): stale/desync reset first, then accept when this is
(now) a first position, or the claimed distance is within `maxAllowed`,
or under the absolute floor of 5; otherwise the reject branch. -/
def processLegacyParsed (sp : MatchPlayer) (grid : AOIGridType) (userId : String)
    (pd : LegacyParsed) (now : ℚ) (msgReliable : Bool) : LegacyResult :=
  let sp1 := legacyStaleReset sp pd now
  if sp1.hasReceivedFirstPosition = false
      ∨ sqDist (pd.x - sp.lastPosition.x) (pd.y - sp.lastPosition.y) ≤ maxAllowed * maxAllowed
      ∨ sqDist (pd.x - sp.lastPosition.x) (pd.y - sp.lastPosition.y) < 5 * 5 then
    legacyAccept sp1 grid userId pd now msgReliable
  else
    legacyReject sp1 grid userId pd now

-- ============================================================================
-- Phase-2 dispatch (src/unnamed/part_001, lines 1036-1119)
-- ============================================================================

/-- One `dispatcher.broadcastMessage` call of the dispatch phase. -/
structure Broadcast where
  opCode : ℕ
  data : List ℕ
  recipients : List String
  sender : String
  reliable : Bool
  deriving DecidableEq

/-- The recipient filter of the dispatch phase (lines 1046-1071): AOI
query at the sender's current position with `AOI_RADIUS`, keeping ids
that are not the sender, are registered, and share the sender's map. -/
def recipientsFor (players : List (String × MatchPlayer)) (grid : AOIGridType)
    (senderId : String) (sp : MatchPlayer) : List String :=
  (aoiGetPlayersInRadius grid sp.lastPosition.x sp.lastPosition.y AOI_RADIUS).filter
    fun pid =>
      decide (pid ≠ senderId) &&
        match players.lookup pid with
        | some p => decide (p.currentMap = sp.currentMap)
        | none => false

/-- In-place field update of a player object held in the `players` map. -/
def setPlayer (players : List (String × MatchPlayer)) (k : String) (v : MatchPlayer) :
    List (String × MatchPlayer) :=
  players.map fun kv => if kv.1 = k then (k, v) else kv

/-- The dispatch-phase body for one pending update (lines 1036-1116):
skip unknown senders; skip when the recipient set is empty; for
`OP_SERVER_POSITION` updates encode the sender's current authoritative
state (including the one-shot `collided` flag) as a v4 frame and clear
the flag; otherwise forward the stored data unchanged. -/
def dispatchOne (players : List (String × MatchPlayer)) (grid : AOIGridType)
    (senderId : String) (update : PendingUpdate) :
    List (String × MatchPlayer) × List Broadcast :=
  match players.lookup senderId with
  | none => (players, [])
  | some sp =>
      let recipients := recipientsFor players grid senderId sp
      if recipients = [] then (players, [])
      else if update.opCode = OP_SERVER_POSITION then
        (setPlayer players senderId { sp with collided := false },
         [{ opCode := OP_SERVER_POSITION,
            data := encodeServerPosition sp.lastPosition.x sp.lastPosition.y
              sp.direction sp.isRunning sp.lastInputSequence sp.collided,
            recipients := recipients, sender := senderId, reliable := update.reliable }])
      else
        (players,
         [{ opCode := update.opCode, data := update.data,
            recipients := recipients, sender := senderId, reliable := update.reliable }])

/-- The whole phase-2 dispatch plus the end-of-tick
`state.pendingUpdates = {}` clearing (lines 1036-1119); returns the new
state and the broadcasts issued. The AOI grid is not modified by this
phase. -/
def dispatchPhase (state : MatchState) : MatchState × List Broadcast :=
  let folded := state.pendingUpdates.foldl
    (fun (acc : List (String × MatchPlayer) × List Broadcast) kv =>
      let step := dispatchOne acc.1 state.aoiGrid kv.1 kv.2
      (step.1, acc.2 ++ step.2))
    (state.players, [])
  ({ state with players := folded.1, pendingUpdates := [] }, folded.2)

-- ============================================================================
-- Codec lemmas
-- ============================================================================

/-- Storing a signed 16-bit value with `setInt16` and reading it back
with `getInt16` is the identity on `[-32768, 32767]`. -/
theorem getInt16LE_toUint16 (v : ℤ) (h1 : -32768 ≤ v) (h2 : v ≤ 32767) :
    getInt16LE (toUint16 v % 256) (toUint16 v / 256) = v := by
  unfold getInt16LE fromInt16 toUint16
  split <;> omega

theorem jsRound_bounds (q : ℚ) (h1 : -32768 ≤ q) (h2 : q ≤ 32767) :
    -32768 ≤ jsRound q ∧ jsRound q ≤ 32767 := by
  unfold jsRound
  constructor
  · rw [Int.le_floor]
    push_cast
    linarith
  · have : ⌊q + 1 / 2⌋ < 32768 := by
      rw [Int.floor_lt]
      push_cast
      linarith
    omega

/-- C5: for all (x, y, direction, running, sequence) in representable
ranges (x, y in signed 16-bit range, direction in 0..7, sequence in
0..255) — and any collided flag — decoding the 9-byte v4 frame produced
by `encodeServerPosition` per the documented layout recovers the
original values, with x and y rounded to the nearest integer. -/
theorem c5_v4_roundtrip (x y : ℚ) (direction sequence : ℕ) (isRunning collided : Bool)
    (hx1 : -32768 ≤ x) (hx2 : x ≤ 32767) (hy1 : -32768 ≤ y) (hy2 : y ≤ 32767)
    (hd : direction < 8) (hs : sequence < 256) :
    decodeServerPosition (encodeServerPosition x y direction isRunning sequence collided) =
      some { x := jsRound x, y := jsRound y, direction := direction,
             isRunning := isRunning, collided := collided, sequence := sequence } := by
  obtain ⟨hrx1, hrx2⟩ := jsRound_bounds x hx1 hx2
  obtain ⟨hry1, hry2⟩ := jsRound_bounds y hy1 hy2
  have ex := getInt16LE_toUint16 (jsRound x) hrx1 hrx2
  have ey := getInt16LE_toUint16 (jsRound y) hry1 hry2
  simp only [encodeServerPosition, decodeServerPosition, List.getD, List.length]
  norm_num [ex, ey, Nat.mod_eq_of_lt hd, Nat.mod_eq_of_lt hs]
  cases isRunning <;> cases collided <;> simp

/-- C5 witness: a concrete round trip. -/
theorem c5_v4_roundtrip_witness :
    (-32768 : ℚ) ≤ 12345 / 10 ∧
    decodeServerPosition (encodeServerPosition (12345 / 10) (-32000) 5 true 200 false) =
      some { x := 1235, y := -32000, direction := 5,
             isRunning := true, collided := false, sequence := 200 } := by
  refine ⟨by norm_num, ?_⟩
  have h := c5_v4_roundtrip (12345 / 10) (-32000) 5 200 true false
    (by norm_num) (by norm_num) (by norm_num) (by norm_num) (by norm_num) (by norm_num)
  rw [h]
  norm_num [jsRound]

/-- C6: legacy decode precedence — a binary (non-JSON) buffer of at
least 7 bytes with leading byte 2 decodes with the v2 layout; a binary
buffer of at least 10 bytes whose leading byte is not 2 decodes with the
v1 layout; `decodePlayerInput` on fewer than 4 bytes returns `none`. -/
theorem c6_legacy_precedence (data : List ℕ) :
    (7 ≤ data.length → data.getD 0 0 = 2 →
      decodeLegacyBinary data =
        some { x := (getInt16LE (data.getD 1 0) (data.getD 2 0) : ℚ),
               y := (getInt16LE (data.getD 3 0) (data.getD 4 0) : ℚ),
               d := some (data.getD 5 0),
               r := some (decide (data.getD 6 0 % 2 = 1)),
               c := some (decide (data.getD 6 0 / 2 % 2 ≠ 0)) }) ∧
    (10 ≤ data.length → data.getD 0 0 ≠ 2 →
      decodeLegacyBinary data =
        some { x := getFloat32LE (data.getD 0 0) (data.getD 1 0) (data.getD 2 0) (data.getD 3 0),
               y := getFloat32LE (data.getD 4 0) (data.getD 5 0) (data.getD 6 0) (data.getD 7 0),
               d := some (data.getD 8 0),
               r := some (decide (data.getD 9 0 = 1)),
               c := some false }) ∧
    (data.length < 4 → decodePlayerInput data = none) := by
  refine ⟨fun h1 h2 => ?_, fun h1 h2 => ?_, fun h => ?_⟩
  · rw [decodeLegacyBinary, if_pos ⟨h1, h2⟩]
  · rw [decodeLegacyBinary, if_neg (by tauto), if_pos h1]
  · rw [decodePlayerInput, if_pos h]

/-- C6 witness: the three cases at concrete buffers — a 10-byte buffer
with leading byte 2 still decodes as v2 (precedence), a 10-byte buffer
with leading byte 1 decodes as v1, and a 3-byte input buffer decodes to
nothing. -/
theorem c6_legacy_precedence_witness :
    decodeLegacyBinary [2, 10, 0, 20, 0, 1, 3, 0, 0, 9] =
      some { x := 10, y := 20, d := some 1, r := some true, c := some true } ∧
    decodeLegacyBinary [1, 2, 3, 4, 5, 6, 7, 8, 9, 1] =
      some { x := getFloat32LE 1 2 3 4, y := getFloat32LE 5 6 7 8,
             d := some 9, r := some true, c := some false } ∧
    decodePlayerInput [3, 1, 1] = none := by
  refine ⟨?_, ?_, ?_⟩
  · rw [(c6_legacy_precedence [2, 10, 0, 20, 0, 1, 3, 0, 0, 9]).1 (by decide) (by decide)]
    decide
  · rw [(c6_legacy_precedence [1, 2, 3, 4, 5, 6, 7, 8, 9, 1]).2.1 (by decide) (by decide)]
    norm_num [List.getD]
  · exact (c6_legacy_precedence [3, 1, 1]).2.2 (by decide)

/-- C8: a join attempt is rejected with reason "Match is full" — as a
structured result, not an exception — exactly when the occupant count
has reached the configured capacity, is accepted otherwise, and the
session state is returned unmodified (player map, spatial index and
pending updates unchanged) in both cases. -/
theorem c8_join_admission (state : MatchState) :
    (((matchJoinAttempt state).accept = false ∧
        (matchJoinAttempt state).rejectMessage = some "Match is full") ↔
      state.maxPlayers ≤ state.players.length) ∧
    ((matchJoinAttempt state).accept = true ↔ state.players.length < state.maxPlayers) ∧
    (matchJoinAttempt state).state = state := by
  unfold matchJoinAttempt
  by_cases h : state.maxPlayers ≤ state.players.length
  · simp [h]
  · simp [h, Nat.lt_of_not_le h]

/-- C9 counterexample: the claim says the decoded running flag is true
whenever bit 0 of the flags byte is set, regardless of the other bits;
but for the 4-byte v3 buffer with flags byte 3 (bits 0 and 1 set) the
decoder — which tests `getUint8(2) === 1` — yields running = false. -/
theorem c9_counterexample :
    (decodePlayerInput [3, 0, 3, 0]).map PlayerInput.isRunning = some false ∧
    3 % 2 = 1 := by decide

/-- C9 (amended): for every buffer of at least 4 bytes with version tag
3, the decode succeeds and the decoded running flag is true iff the
flags byte (offset 2) equals exactly 1 — not iff its bit 0 is set. -/
theorem c9_input_running_flag (data : List ℕ)
    (hlen : 4 ≤ data.length) (hver : data.getD 0 0 = 3) :
    decodePlayerInput data =
      some { direction := data.getD 1 0,
             isRunning := decide (data.getD 2 0 = 1),
             sequence := data.getD 3 0 } ∧
    ((decide (data.getD 2 0 = 1) : Bool) = true ↔ data.getD 2 0 = 1) := by
  constructor
  · rw [decodePlayerInput, if_neg (by omega), if_neg (not_ne_iff.mpr hver)]
  · simp

/-- C9 witness: a concrete application of the amended statement. -/
theorem c9_input_running_flag_witness :
    decodePlayerInput [3, 2, 1, 7] =
      some { direction := 2, isRunning := true, sequence := 7 } := by
  have h := (c9_input_running_flag [3, 2, 1, 7] (by decide) (by decide)).1
  rw [h]
  decide

-- ============================================================================
-- Anti-cheat ingestion lemmas
-- ============================================================================

theorem sqDist_eq_zero_iff (dx dy : ℚ) : sqDist dx dy = 0 ↔ dx = 0 ∧ dy = 0 := by
  unfold sqDist
  constructor
  · intro h
    have h1 : dx * dx = 0 ∧ dy * dy = 0 :=
      (add_eq_zero_iff_of_nonneg (mul_self_nonneg dx) (mul_self_nonneg dy)).mp h
    exact ⟨mul_self_eq_zero.mp h1.1, mul_self_eq_zero.mp h1.2⟩
  · rintro ⟨h1, h2⟩
    rw [h1, h2]
    ring

theorem maxAllowed_eq : maxAllowed = 96 := by
  norm_num [maxAllowed, RUN_SPEED, tickDt, MAX_SPEED_TOLERANCE]

/-- When none of the stale/desync conditions holds, `legacyStaleReset`
is the identity. -/
theorem legacyStaleReset_id (sp : MatchPlayer) (pd : LegacyParsed) (now : ℚ)
    (hx : 0 ≤ sp.lastPosition.x) (hy : 0 ≤ sp.lastPosition.y)
    (hfresh : now - sp.lastInputTime ≤ 5000)
    (hnear : sqDist (pd.x - sp.lastPosition.x) (pd.y - sp.lastPosition.y) ≤ 1000 * 1000) :
    legacyStaleReset sp pd now = sp := by
  unfold legacyStaleReset
  rw [if_neg]
  push_neg
  exact ⟨hy, hx, hfresh, hnear⟩

/-- C1: with the first-position flag set and none of the stale/desync
conditions in force (nonnegative last position, input within 5 s,
claimed distance at most 1000), a legacy position update is accepted —
`lastPosition` set to the claimed coordinates and the spatial index
moved there — if and only if the claimed distance is within
`maxAllowed = RUN_SPEED·tickDt·MAX_SPEED_TOLERANCE·10 = 96`, or under
the 5-unit absolute floor, or the update is a stop (`r = false`). In
particular a move of distance exactly 96 is accepted and one of 97
(with `r = true`) is rejected. -/
theorem c1_envelope_boundary
    (sp : MatchPlayer) (grid : AOIGridType) (userId : String)
    (pd : LegacyParsed) (now : ℚ) (msgReliable : Bool)
    (hflag : sp.hasReceivedFirstPosition = true)
    (hx : 0 ≤ sp.lastPosition.x) (hy : 0 ≤ sp.lastPosition.y)
    (hfresh : now - sp.lastInputTime < 5000)
    (hnear : sqDist (pd.x - sp.lastPosition.x) (pd.y - sp.lastPosition.y) ≤ 1000 * 1000) :
    maxAllowed = 96 ∧
    (((processLegacyParsed sp grid userId pd now msgReliable).player.lastPosition =
        ⟨pd.x, pd.y⟩ ∧
      (processLegacyParsed sp grid userId pd now msgReliable).grid =
        aoiUpdatePlayer grid userId pd.x pd.y) ↔
      (sqDist (pd.x - sp.lastPosition.x) (pd.y - sp.lastPosition.y) ≤ maxAllowed * maxAllowed ∨
       sqDist (pd.x - sp.lastPosition.x) (pd.y - sp.lastPosition.y) < 5 * 5 ∨
       pd.r = some false)) := by
  refine ⟨maxAllowed_eq, ?_⟩
  have hreset := legacyStaleReset_id sp pd now hx hy (le_of_lt hfresh) hnear
  simp only [processLegacyParsed]
  rw [hreset, hflag]
  by_cases hcond : sqDist (pd.x - sp.lastPosition.x) (pd.y - sp.lastPosition.y) ≤
      maxAllowed * maxAllowed ∨
      sqDist (pd.x - sp.lastPosition.x) (pd.y - sp.lastPosition.y) < 5 * 5
  · rw [if_pos (Or.inr hcond)]
    refine iff_of_true ⟨?_, ?_⟩ (by tauto)
    · simp [legacyAccept, hflag]
    · rfl
  · rw [if_neg (by simpa using hcond)]
    push_neg at hcond
    by_cases hstop : pd.r = some false
    · simp only [legacyReject, if_pos hstop]
      simp [hstop]
    · simp only [legacyReject, if_neg hstop]
      have hne : sp.lastPosition ≠ (⟨pd.x, pd.y⟩ : Pos) := by
        intro hEq
        have hx0 : pd.x - sp.lastPosition.x = 0 := by rw [hEq]; ring
        have hy0 : pd.y - sp.lastPosition.y = 0 := by rw [hEq]; ring
        have : sqDist (pd.x - sp.lastPosition.x) (pd.y - sp.lastPosition.y) = 0 := by
          rw [hx0, hy0]; unfold sqDist; ring
        have h96 : (0 : ℚ) ≤ maxAllowed * maxAllowed := by rw [maxAllowed_eq]; norm_num
        have := hcond.1
        linarith
      simp [hstop, hne, hcond.1, hcond.2, Ne.symm hne]

/-- C2: a legacy update whose claimed distance exceeds the envelope —
with the first-position exception not applying (flag set, nonnegative
last position, fresh input, distance at most 1000) — is accepted anyway
when it is a stop message (`r = false`): `lastPosition` becomes the
claimed coordinates, the spatial index follows, and a reliable
`OP_SERVER_POSITION` update is marked for broadcast. -/
theorem c2_stop_trust
    (sp : MatchPlayer) (grid : AOIGridType) (userId : String)
    (pd : LegacyParsed) (now : ℚ) (msgReliable : Bool)
    (hflag : sp.hasReceivedFirstPosition = true)
    (hx : 0 ≤ sp.lastPosition.x) (hy : 0 ≤ sp.lastPosition.y)
    (hfresh : now - sp.lastInputTime ≤ 5000)
    (hnear : sqDist (pd.x - sp.lastPosition.x) (pd.y - sp.lastPosition.y) ≤ 1000 * 1000)
    (hfar : maxAllowed * maxAllowed < sqDist (pd.x - sp.lastPosition.x) (pd.y - sp.lastPosition.y))
    (hstop : pd.r = some false) :
    (processLegacyParsed sp grid userId pd now msgReliable).player.lastPosition =
      ⟨pd.x, pd.y⟩ ∧
    (processLegacyParsed sp grid userId pd now msgReliable).grid =
      aoiUpdatePlayer grid userId pd.x pd.y ∧
    (processLegacyParsed sp grid userId pd now msgReliable).pending =
      { userId := userId, opCode := OP_SERVER_POSITION, data := [], reliable := true } := by
  have hreset := legacyStaleReset_id sp pd now hx hy hfresh hnear
  have h25 : ¬ sqDist (pd.x - sp.lastPosition.x) (pd.y - sp.lastPosition.y) < 5 * 5 := by
    rw [maxAllowed_eq] at hfar
    push_neg
    linarith
  simp only [processLegacyParsed]
  rw [hreset, hflag]
  rw [if_neg (by push_neg; exact ⟨by simp, hfar, not_lt.mp h25⟩)]
  simp [legacyReject, hstop]

/-- C7: when a stale/desync condition holds (negative stored coordinate,
input older than 5 s, or claimed distance above 1000), the
first-position flag is reset and the claimed position is then accepted
as a first position regardless of the distance envelope: `lastPosition`
and the spatial index take the claimed coordinates and the flag is set
again. -/
theorem c7_stale_reset_accepts
    (sp : MatchPlayer) (grid : AOIGridType) (userId : String)
    (pd : LegacyParsed) (now : ℚ) (msgReliable : Bool)
    (h : sp.lastPosition.x < 0 ∨ sp.lastPosition.y < 0 ∨
         5000 < now - sp.lastInputTime ∨
         1000 * 1000 < sqDist (pd.x - sp.lastPosition.x) (pd.y - sp.lastPosition.y)) :
    (legacyStaleReset sp pd now).hasReceivedFirstPosition = false ∧
    (processLegacyParsed sp grid userId pd now msgReliable).player.lastPosition =
      ⟨pd.x, pd.y⟩ ∧
    (processLegacyParsed sp grid userId pd now msgReliable).grid =
      aoiUpdatePlayer grid userId pd.x pd.y ∧
    (processLegacyParsed sp grid userId pd now msgReliable).player.hasReceivedFirstPosition =
      true := by
  have hr : (legacyStaleReset sp pd now).hasReceivedFirstPosition = false := by
    unfold legacyStaleReset
    rw [if_pos (by tauto)]
    by_cases hf : sp.hasReceivedFirstPosition = true <;> simp [hf]
  refine ⟨hr, ?_, ?_, ?_⟩ <;>
  · simp only [processLegacyParsed]
    rw [if_pos (Or.inl hr)]
    simp [legacyAccept, hr]

-- ============================================================================
-- Concrete fixtures for the witnesses
-- ============================================================================

/-- A concrete active player used by the closed witness statements. -/
def basePlayer : MatchPlayer :=
  { userId := "u1", sessionId := "s1", username := "alice", node := "n1",
    joinedAt := 0, currentMap := "outdoors", lastPosition := ⟨96, 384⟩,
    direction := DIR_NONE, isRunning := false, lastInputTime := 0,
    lastInputSequence := 0, hasReceivedFirstPosition := true, collided := false }

/-- C1 witness: a player at (0,0); the claimed move to (96,0) — distance
exactly `maxAllowed` — is accepted, and a claimed running move to (97,0)
— one unit beyond — is rejected. -/
theorem c1_envelope_boundary_witness :
    (processLegacyParsed { basePlayer with lastPosition := ⟨0, 0⟩ } (createAOIGrid 200) "u1"
        ⟨96, 0, some 1, some true, some false⟩ 100 false).player.lastPosition =
      ⟨96, 0⟩ ∧
    ¬ ((processLegacyParsed { basePlayer with lastPosition := ⟨0, 0⟩ } (createAOIGrid 200) "u1"
          ⟨97, 0, some 1, some true, some false⟩ 100 false).player.lastPosition =
        ⟨97, 0⟩ ∧
       (processLegacyParsed { basePlayer with lastPosition := ⟨0, 0⟩ } (createAOIGrid 200) "u1"
          ⟨97, 0, some 1, some true, some false⟩ 100 false).grid =
        aoiUpdatePlayer (createAOIGrid 200) "u1" 97 0) := by
  constructor
  · have h := (c1_envelope_boundary { basePlayer with lastPosition := ⟨0, 0⟩ }
      (createAOIGrid 200) "u1" ⟨96, 0, some 1, some true, some false⟩ 100 false
      rfl (by norm_num [basePlayer]) (by norm_num [basePlayer])
      (by norm_num [basePlayer]) (by norm_num [basePlayer, sqDist])).2
    exact (h.mpr (Or.inl (by rw [maxAllowed_eq]; norm_num [basePlayer, sqDist]))).1
  · intro hacc
    have h := (c1_envelope_boundary { basePlayer with lastPosition := ⟨0, 0⟩ }
      (createAOIGrid 200) "u1" ⟨97, 0, some 1, some true, some false⟩ 100 false
      rfl (by norm_num [basePlayer]) (by norm_num [basePlayer])
      (by norm_num [basePlayer]) (by norm_num [basePlayer, sqDist])).2
    have := h.mp hacc
    rw [maxAllowed_eq] at this
    norm_num [basePlayer, sqDist] at this

/-- C2 witness: the spec scenario — a player at (100,100) sends a legacy
update to (500,500) with running = false; despite the distance exceeding
the envelope, the final position becomes (500,500), the grid follows and
a reliable broadcast is marked. -/
theorem c2_stop_trust_witness :
    (processLegacyParsed { basePlayer with lastPosition := ⟨100, 100⟩ } (createAOIGrid 200) "u1"
        ⟨500, 500, some 1, some false, some false⟩ 100 false).player.lastPosition =
      ⟨500, 500⟩ ∧
    (processLegacyParsed { basePlayer with lastPosition := ⟨100, 100⟩ } (createAOIGrid 200) "u1"
        ⟨500, 500, some 1, some false, some false⟩ 100 false).pending =
      { userId := "u1", opCode := OP_SERVER_POSITION, data := [], reliable := true } := by
  have h := c2_stop_trust { basePlayer with lastPosition := ⟨100, 100⟩ }
    (createAOIGrid 200) "u1" ⟨500, 500, some 1, some false, some false⟩ 100 false
    rfl (by norm_num [basePlayer]) (by norm_num [basePlayer])
    (by norm_num [basePlayer]) (by norm_num [basePlayer, sqDist])
    (by rw [maxAllowed_eq]; norm_num [basePlayer, sqDist]) rfl
  exact ⟨h.1, h.2.2⟩

/-- C7 witness: a player whose stored position has a negative x
coordinate; a claimed update to (5000,5000) — far beyond any envelope —
is accepted as a fresh first position. -/
theorem c7_stale_reset_accepts_witness :
    (processLegacyParsed { basePlayer with lastPosition := ⟨-5, 50⟩ } (createAOIGrid 200) "u1"
        ⟨5000, 5000, none, none, none⟩ 100 false).player.lastPosition =
      ⟨5000, 5000⟩ ∧
    (processLegacyParsed { basePlayer with lastPosition := ⟨-5, 50⟩ } (createAOIGrid 200) "u1"
        ⟨5000, 5000, none, none, none⟩ 100 false).player.hasReceivedFirstPosition = true := by
  have h := c7_stale_reset_accepts { basePlayer with lastPosition := ⟨-5, 50⟩ }
    (createAOIGrid 200) "u1" ⟨5000, 5000, none, none, none⟩ 100 false
    (Or.inl (by norm_num [basePlayer]))
  exact ⟨h.2.1, h.2.2.2⟩


-- ============================================================================
-- AOI grid consistency (claim C3)
-- ============================================================================

/-- The mutual-consistency invariant of the AOI grid: a player is a
member of a cell's set iff the reverse index maps it to that cell's key;
member sets are duplicate-free (JS object keys are unique). -/
def aoiConsistent (g : AOIGridType) : Prop :=
  (∀ p c, p ∈ g.cells c ↔ g.playerCells p = some c) ∧ ∀ c, (g.cells c).Nodup

theorem mem_objInsert (l : List String) (k p : String) :
    p ∈ objInsert l k ↔ p ∈ l ∨ p = k := by
  unfold objInsert
  by_cases hk : k ∈ l
  · rw [if_pos hk]
    constructor
    · exact Or.inl
    · rintro (hp | rfl)
      · exact hp
      · exact hk
  · rw [if_neg hk]
    simp

theorem nodup_objInsert (l : List String) (k : String) (h : l.Nodup) :
    (objInsert l k).Nodup := by
  unfold objInsert
  by_cases hk : k ∈ l
  · rwa [if_pos hk]
  · rw [if_neg hk]
    simp [List.nodup_append, h, hk]

theorem insertCell_apply (cells : ℤ × ℤ → List String) (cell : ℤ × ℤ) (userId : String)
    (c : ℤ × ℤ) :
    insertCell cells cell userId c =
      if c = cell then objInsert (cells cell) userId else cells c := rfl

theorem eraseCell_apply (cells : ℤ × ℤ → List String) (cell : ℤ × ℤ) (userId : String)
    (c : ℤ × ℤ) :
    eraseCell cells cell userId c =
      if c = cell then (cells cell).erase userId else cells c := rfl

theorem mem_insertCell (cells : ℤ × ℤ → List String) (cell : ℤ × ℤ) (userId p : String)
    (c : ℤ × ℤ) :
    p ∈ insertCell cells cell userId c ↔ (c = cell ∧ p = userId) ∨ p ∈ cells c := by
  rw [insertCell_apply]
  by_cases hc : c = cell
  · subst hc
    rw [if_pos rfl, mem_objInsert]
    tauto
  · rw [if_neg hc]
    tauto

theorem mem_eraseCell (cells : ℤ × ℤ → List String) (cell : ℤ × ℤ) (userId p : String)
    (c : ℤ × ℤ) (hnd : ∀ c, (cells c).Nodup) :
    p ∈ eraseCell cells cell userId c ↔ p ∈ cells c ∧ ¬(c = cell ∧ p = userId) := by
  rw [eraseCell_apply]
  by_cases hc : c = cell
  · subst hc
    rw [if_pos rfl, List.Nodup.mem_erase_iff (hnd c)]
    tauto
  · rw [if_neg hc]
    tauto

/-- `aoiUpdatePlayer` preserves the consistency invariant. -/
theorem aoiConsistent_update (g : AOIGridType) (userId : String) (x y : ℚ)
    (hg : aoiConsistent g) : aoiConsistent (aoiUpdatePlayer g userId x y) := by
  obtain ⟨hm, hnd⟩ := hg
  unfold aoiUpdatePlayer
  cases hpc : g.playerCells userId with
  | none =>
    refine ⟨fun p c => ?_, fun c => ?_⟩
    · show p ∈ insertCell g.cells (aoiGetCellKey g x y) userId c ↔
        (if p = userId then some (aoiGetCellKey g x y) else g.playerCells p) = some c
      rw [mem_insertCell, hm p c]
      by_cases hp : p = userId
      · subst hp
        rw [if_pos rfl, hpc]
        constructor
        · rintro (⟨rfl, -⟩ | h)
          · rfl
          · exact absurd h (by simp)
        · intro h
          exact Or.inl ⟨(Option.some.injEq _ _ ▸ h).symm, rfl⟩
      · rw [if_neg hp]
        tauto
    · show (insertCell g.cells (aoiGetCellKey g x y) userId c).Nodup
      rw [insertCell_apply]
      by_cases hc : c = aoiGetCellKey g x y
      · rw [if_pos hc]
        exact nodup_objInsert _ _ (hnd _)
      · rw [if_neg hc]
        exact hnd c
  | some oldCell =>
    show aoiConsistent
      (if oldCell = aoiGetCellKey g x y then g
       else
         { cells := insertCell (eraseCell g.cells oldCell userId) (aoiGetCellKey g x y) userId,
           playerCells := fun u =>
             if u = userId then some (aoiGetCellKey g x y) else g.playerCells u,
           cellSize := g.cellSize })
    by_cases hco : oldCell = aoiGetCellKey g x y
    · rw [if_pos hco]
      exact ⟨hm, hnd⟩
    · rw [if_neg hco]
      have hndE : ∀ c, (eraseCell g.cells oldCell userId c).Nodup := by
        intro c
        rw [eraseCell_apply]
        by_cases hc : c = oldCell
        · rw [if_pos hc]
          exact List.Nodup.erase _ (hnd _)
        · rw [if_neg hc]
          exact hnd c
      refine ⟨fun p c => ?_, fun c => ?_⟩
      · show p ∈ insertCell (eraseCell g.cells oldCell userId) (aoiGetCellKey g x y) userId c ↔
          (if p = userId then some (aoiGetCellKey g x y) else g.playerCells p) = some c
        rw [mem_insertCell, mem_eraseCell _ _ _ _ _ hnd, hm p c]
        by_cases hp : p = userId
        · subst hp
          rw [if_pos rfl, hpc]
          constructor
          · rintro (⟨rfl, -⟩ | ⟨hsome, hnot⟩)
            · rfl
            · have hoc : oldCell = c := by simpa using hsome
              exact absurd ⟨hoc.symm, rfl⟩ hnot
          · intro h
            exact Or.inl ⟨(Option.some.injEq _ _ ▸ h).symm, rfl⟩
        · rw [if_neg hp]
          constructor
          · rintro (⟨-, hbad⟩ | ⟨h, -⟩)
            · exact absurd hbad hp
            · exact h
          · intro h
            exact Or.inr ⟨h, fun hand => hp hand.2⟩
      · show (insertCell (eraseCell g.cells oldCell userId) (aoiGetCellKey g x y) userId c).Nodup
        rw [insertCell_apply]
        by_cases hc : c = aoiGetCellKey g x y
        · rw [if_pos hc]
          exact nodup_objInsert _ _ (hndE _)
        · rw [if_neg hc]
          exact hndE c

/-- `aoiRemovePlayer` preserves the consistency invariant. -/
theorem aoiConsistent_remove (g : AOIGridType) (userId : String)
    (hg : aoiConsistent g) : aoiConsistent (aoiRemovePlayer g userId) := by
  obtain ⟨hm, hnd⟩ := hg
  unfold aoiRemovePlayer
  cases hpc : g.playerCells userId with
  | none =>
    refine ⟨fun p c => ?_, fun c => hnd c⟩
    show p ∈ g.cells c ↔ (if p = userId then none else g.playerCells p) = some c
    rw [hm p c]
    by_cases hp : p = userId
    · subst hp
      rw [if_pos rfl, hpc]
    · rw [if_neg hp]
  | some cell =>
    refine ⟨fun p c => ?_, fun c => ?_⟩
    · show p ∈ eraseCell g.cells cell userId c ↔
        (if p = userId then none else g.playerCells p) = some c
      rw [mem_eraseCell _ _ _ _ _ hnd, hm p c]
      by_cases hp : p = userId
      · subst hp
        rw [if_pos rfl, hpc]
        constructor
        · rintro ⟨hsome, hnot⟩
          have hcc : cell = c := by simpa using hsome
          exact absurd ⟨hcc.symm, rfl⟩ hnot
        · intro h
          exact absurd h (by simp)
      · rw [if_neg hp]
        constructor
        · rintro ⟨h, -⟩
          exact h
        · intro h
          exact ⟨h, fun hand => hp hand.2⟩
    · show (eraseCell g.cells cell userId c).Nodup
      rw [eraseCell_apply]
      by_cases hc : c = cell
      · rw [if_pos hc]
        exact List.Nodup.erase _ (hnd _)
      · rw [if_neg hc]
        exact hnd c

/-- An abstract call against the spatial index: upsert or remove. -/
inductive AOIOp where
  | upsert (userId : String) (x y : ℚ)
  | remove (userId : String)

/-- Applying one call. -/
def applyAOIOp (g : AOIGridType) : AOIOp → AOIGridType
  | .upsert u x y => aoiUpdatePlayer g u x y
  | .remove u => aoiRemovePlayer g u

/-- Running a sequence of calls against the initially empty grid. -/
def runAOIOps (ops : List AOIOp) : AOIGridType :=
  ops.foldl applyAOIOp (createAOIGrid AOI_CELL_SIZE)

theorem aoiConsistent_foldl (ops : List AOIOp) (g : AOIGridType)
    (hg : aoiConsistent g) : aoiConsistent (ops.foldl applyAOIOp g) := by
  induction ops generalizing g with
  | nil => exact hg
  | cons op rest ih =>
    cases op with
    | upsert u x y => exact ih _ (aoiConsistent_update g u x y hg)
    | remove u => exact ih _ (aoiConsistent_remove g u hg)

/-- C3: after any sequence of upsert/remove calls starting from the
empty grid, the forward index and the reverse index agree — a player is
in a cell's member set iff the reverse index maps it to that cell key —
and consequently a player id appears in at most one cell's member set. -/
theorem c3_grid_consistency (ops : List AOIOp) :
    (∀ p c, p ∈ (runAOIOps ops).cells c ↔ (runAOIOps ops).playerCells p = some c) ∧
    (∀ p c1 c2, p ∈ (runAOIOps ops).cells c1 → p ∈ (runAOIOps ops).cells c2 → c1 = c2) := by
  have h : aoiConsistent (runAOIOps ops) := by
    unfold runAOIOps
    refine aoiConsistent_foldl ops _ ⟨fun p c => ?_, fun c => ?_⟩
    · simp [createAOIGrid]
    · simp [createAOIGrid]
  refine ⟨h.1, fun p c1 c2 h1 h2 => ?_⟩
  have e1 := (h.1 p c1).mp h1
  have e2 := (h.1 p c2).mp h2
  rw [e1] at e2
  exact Option.some.injEq _ _ ▸ e2

-- ============================================================================
-- AOI-filtered dispatch recipients (claim C4)
-- ============================================================================

theorem mem_foldl_dedup (l acc : List String) (p : String) :
    p ∈ l.foldl (fun acc pid => if pid ∈ acc then acc else acc ++ [pid]) acc ↔
      p ∈ acc ∨ p ∈ l := by
  induction l generalizing acc with
  | nil => simp
  | cons a l ih =>
    simp only [List.foldl_cons]
    by_cases ha : a ∈ acc
    · rw [if_pos ha, ih]
      simp only [List.mem_cons]
      constructor
      · tauto
      · rintro (h | rfl | h) <;> tauto
    · rw [if_neg ha, ih]
      simp only [List.mem_append, List.mem_cons, List.mem_singleton]
      tauto

theorem mem_intRange (lo hi d : ℤ) : d ∈ intRange lo hi ↔ lo ≤ d ∧ d ≤ hi := by
  unfold intRange
  rw [List.mem_map]
  constructor
  · rintro ⟨i, hi', rfl⟩
    rw [List.mem_range] at hi'
    omega
  · rintro ⟨h1, h2⟩
    refine ⟨(d - lo).toNat, ?_, ?_⟩
    · rw [List.mem_range]
      omega
    · omega

theorem mem_aoiGetPlayersInRadius (g : AOIGridType) (cx cy r : ℚ) (p : String) :
    p ∈ aoiGetPlayersInRadius g cx cy r ↔
      ∃ dx dy : ℤ, -⌈r / g.cellSize⌉ ≤ dx ∧ dx ≤ ⌈r / g.cellSize⌉ ∧
        -⌈r / g.cellSize⌉ ≤ dy ∧ dy ≤ ⌈r / g.cellSize⌉ ∧
        p ∈ g.cells (⌊cx / g.cellSize⌋ + dx, ⌊cy / g.cellSize⌋ + dy) := by
  unfold aoiGetPlayersInRadius
  rw [mem_foldl_dedup]
  simp only [List.mem_flatMap, mem_intRange, List.not_mem_nil, false_or]
  constructor
  · rintro ⟨dx, ⟨h1, h2⟩, dy, ⟨h3, h4⟩, hmem⟩
    exact ⟨dx, dy, h1, h2, h3, h4, hmem⟩
  · rintro ⟨dx, dy, h1, h2, h3, h4, hmem⟩
    exact ⟨dx, ⟨h1, h2⟩, dy, ⟨h3, h4⟩, hmem⟩

theorem mem_recipientsFor (players : List (String × MatchPlayer)) (g : AOIGridType)
    (senderId : String) (sp : MatchPlayer) (pid : String) :
    pid ∈ recipientsFor players g senderId sp ↔
      pid ∈ aoiGetPlayersInRadius g sp.lastPosition.x sp.lastPosition.y AOI_RADIUS ∧
      pid ≠ senderId ∧
      ∃ p, players.lookup pid = some p ∧ p.currentMap = sp.currentMap := by
  unfold recipientsFor
  rw [List.mem_filter]
  constructor
  · rintro ⟨hmem, hb⟩
    rw [Bool.and_eq_true, decide_eq_true_iff] at hb
    obtain ⟨hne, hmap⟩ := hb
    cases hlk : players.lookup pid with
    | none =>
      rw [hlk] at hmap
      exact absurd hmap (by simp)
    | some q =>
      rw [hlk] at hmap
      rw [decide_eq_true_iff] at hmap
      exact ⟨hmem, hne, q, rfl, hmap⟩
  · rintro ⟨hmem, hne, q, hlk, hmap⟩
    refine ⟨hmem, ?_⟩
    rw [Bool.and_eq_true, decide_eq_true_iff]
    refine ⟨hne, ?_⟩
    rw [hlk]
    exact decide_eq_true hmap

/-- C4 (amended): a recipient of the dispatch phase is never the sender,
always shares the sender's sub-map (so a different-map player is
excluded even when within radius), and is always a member of some grid
cell within `⌈AOI_RADIUS / cellSize⌉` (= 3) cells of the sender's cell
on both axes — the radius-square cell superset. Mere Euclidean distance
beyond `AOI_RADIUS` does **not** guarantee exclusion (see the
counterexample), so the original "excluded if outside the interest
radius" holds only at cell-block granularity. -/
theorem c4_aoi_filtering (players : List (String × MatchPlayer)) (g : AOIGridType)
    (senderId : String) (sp : MatchPlayer) (pid : String)
    (h : pid ∈ recipientsFor players g senderId sp) :
    pid ≠ senderId ∧
    (∃ p, players.lookup pid = some p ∧ p.currentMap = sp.currentMap) ∧
    (∃ c : ℤ × ℤ, pid ∈ g.cells c ∧
      |c.1 - ⌊sp.lastPosition.x / g.cellSize⌋| ≤ ⌈AOI_RADIUS / g.cellSize⌉ ∧
      |c.2 - ⌊sp.lastPosition.y / g.cellSize⌋| ≤ ⌈AOI_RADIUS / g.cellSize⌉) := by
  rw [mem_recipientsFor] at h
  obtain ⟨hmem, hne, hmap⟩ := h
  refine ⟨hne, hmap, ?_⟩
  rw [mem_aoiGetPlayersInRadius] at hmem
  obtain ⟨dx, dy, h1, h2, h3, h4, hc⟩ := hmem
  refine ⟨_, hc, ?_, ?_⟩
  · rw [add_sub_cancel_left, abs_le]
    exact ⟨h1, h2⟩
  · rw [add_sub_cancel_left, abs_le]
    exact ⟨h3, h4⟩

-- Concrete two-player state for the C4 counterexample and witness:
-- sender "A" at (0,0) and "B" at (750,0), same sub-map, grid built by
-- two upserts into the empty 200-unit grid.

/-- Player "A" at the origin. -/
def cxA : MatchPlayer := { basePlayer with userId := "A", lastPosition := ⟨0, 0⟩ }

/-- Player "B" at (750, 0): same map as "A", distance 750 > 600. -/
def cxB : MatchPlayer := { basePlayer with userId := "B", lastPosition := ⟨750, 0⟩ }

/-- The registered players. -/
def cxPlayers : List (String × MatchPlayer) := [("A", cxA), ("B", cxB)]

/-- The grid after upserting both players at their positions. -/
def cxGrid : AOIGridType :=
  aoiUpdatePlayer (aoiUpdatePlayer (createAOIGrid 200) "A" 0 0) "B" 750 0

theorem cxGrid_cellSize : cxGrid.cellSize = 200 := rfl

theorem cxGrid_cells_30 : "B" ∈ cxGrid.cells (3, 0) := by
  show "B" ∈ (aoiUpdatePlayer (aoiUpdatePlayer (createAOIGrid 200) "A" 0 0) "B" 750 0).cells (3, 0)
  set g1 := aoiUpdatePlayer (createAOIGrid 200) "A" 0 0 with hg1
  have hkeyB : aoiGetCellKey g1 750 0 = (3, 0) := by
    unfold aoiGetCellKey
    norm_num [show g1.cellSize = 200 from rfl]
  have hpcB : g1.playerCells "B" = none := by
    rw [hg1]
    show (if "B" = "A" then some (aoiGetCellKey (createAOIGrid 200) 0 0) else none) = none
    rw [if_neg (by decide)]
  unfold aoiUpdatePlayer
  rw [hpcB]
  show "B" ∈ insertCell g1.cells (aoiGetCellKey g1 750 0) "B" (3, 0)
  rw [mem_insertCell, hkeyB]
  exact Or.inl ⟨rfl, rfl⟩

/-- "B" is computed as a recipient of "A"'s update. -/
theorem cxB_mem : "B" ∈ recipientsFor cxPlayers cxGrid "A" cxA := by
  rw [mem_recipientsFor]
  refine ⟨?_, by decide, cxB, by decide, rfl⟩
  rw [mem_aoiGetPlayersInRadius]
  refine ⟨3, 0, ?_⟩
  rw [cxGrid_cellSize]
  have hr : ⌈AOI_RADIUS / (200 : ℚ)⌉ = 3 := by norm_num [AOI_RADIUS]
  have hfx : ⌊cxA.lastPosition.x / (200 : ℚ)⌋ = 0 := by norm_num [cxA, basePlayer]
  have hfy : ⌊cxA.lastPosition.y / (200 : ℚ)⌋ = 0 := by norm_num [cxA, basePlayer]
  rw [hr, hfx, hfy]
  refine ⟨by norm_num, by norm_num, by norm_num, by norm_num, ?_⟩
  show "B" ∈ cxGrid.cells (0 + 3, 0 + 0)
  norm_num
  exact cxGrid_cells_30

/-- C4 counterexample: "B" is on the same sub-map as the sender "A" and
at Euclidean distance 750 > AOI_RADIUS = 600 from it, yet "B" is in the
computed recipient set — the claim's "excluded if outside the interest
radius even when on the same sub-map" fails on the code, which only
filters at the granularity of the scanned cell block. -/
theorem c4_aoi_filtering_counterexample :
    "B" ∈ recipientsFor cxPlayers cxGrid "A" cxA ∧
    cxB.currentMap = cxA.currentMap ∧
    AOI_RADIUS * AOI_RADIUS <
      sqDist (cxB.lastPosition.x - cxA.lastPosition.x)
        (cxB.lastPosition.y - cxA.lastPosition.y) := by
  refine ⟨cxB_mem, rfl, ?_⟩
  norm_num [cxA, cxB, basePlayer, sqDist, AOI_RADIUS]

/-- C4 witness: the amended statement applied to the concrete state. -/
theorem c4_aoi_filtering_witness :
    "B" ≠ "A" ∧
    (∃ p, cxPlayers.lookup "B" = some p ∧ p.currentMap = cxA.currentMap) ∧
    (∃ c : ℤ × ℤ, "B" ∈ cxGrid.cells c ∧
      |c.1 - ⌊cxA.lastPosition.x / cxGrid.cellSize⌋| ≤ ⌈AOI_RADIUS / cxGrid.cellSize⌉ ∧
      |c.2 - ⌊cxA.lastPosition.y / cxGrid.cellSize⌋| ≤ ⌈AOI_RADIUS / cxGrid.cellSize⌉) :=
  c4_aoi_filtering cxPlayers cxGrid "A" cxA "B" cxB_mem

-- ============================================================================
-- The one-shot collided flag through the dispatch phase (claim C10)
-- ============================================================================

theorem lookup_setPlayer (ps : List (String × MatchPlayer)) (k : String) (v sp : MatchPlayer)
    (h : ps.lookup k = some sp) : (setPlayer ps k v).lookup k = some v := by
  induction ps with
  | nil => simp [List.lookup] at h
  | cons kv rest ih =>
    obtain ⟨k1, v1⟩ := kv
    by_cases hk : k1 = k
    · subst hk
      show List.lookup k1
        ((if (k1, v1).1 = k1 then (k1, v) else (k1, v1)) :: setPlayer rest k1 v) = some v
      rw [if_pos rfl]
      simp [List.lookup]
    · have hk' : (k == k1) = false := by simpa using Ne.symm hk
      rw [List.lookup, hk'] at h
      simp only [setPlayer, List.map_cons] at ih ⊢
      rw [if_neg hk, List.lookup, hk']
      exact ih h

/-- C10: the one-shot `collided` flag survives a tick in which the
recipient set is empty — the dispatch phase then leaves the player map
untouched and only clears the pending-update map — while a dispatch to a
non-empty recipient set emits a v4 frame that carries the flag and then
clears it; independently, an accepted legacy update carrying a `c` field
overwrites the flag. -/
theorem c10_collided_one_shot (state : MatchState) (uid : String)
    (sp : MatchPlayer) (pu : PendingUpdate)
    (hpu : state.pendingUpdates = [(uid, pu)])
    (hsp : state.players.lookup uid = some sp)
    (hop : pu.opCode = OP_SERVER_POSITION) :
    (recipientsFor state.players state.aoiGrid uid sp = [] →
      (dispatchPhase state).1.players = state.players ∧
      (dispatchPhase state).2 = [] ∧
      (dispatchPhase state).1.pendingUpdates = []) ∧
    (recipientsFor state.players state.aoiGrid uid sp ≠ [] →
      (dispatchPhase state).2 =
        [{ opCode := OP_SERVER_POSITION,
           data := encodeServerPosition sp.lastPosition.x sp.lastPosition.y sp.direction
             sp.isRunning sp.lastInputSequence sp.collided,
           recipients := recipientsFor state.players state.aoiGrid uid sp,
           sender := uid, reliable := pu.reliable }] ∧
      (dispatchPhase state).1.players.lookup uid = some { sp with collided := false } ∧
      (dispatchPhase state).1.pendingUpdates = []) ∧
    (∀ (sp' : MatchPlayer) (grid : AOIGridType) (userId : String) (pd : LegacyParsed)
        (now : ℚ) (rel : Bool) (b : Bool),
      pd.c = some b →
      ((legacyStaleReset sp' pd now).hasReceivedFirstPosition = false ∨
        sqDist (pd.x - sp'.lastPosition.x) (pd.y - sp'.lastPosition.y) ≤
          maxAllowed * maxAllowed ∨
        sqDist (pd.x - sp'.lastPosition.x) (pd.y - sp'.lastPosition.y) < 5 * 5) →
      (processLegacyParsed sp' grid userId pd now rel).player.collided = b) := by
  refine ⟨?_, ?_, ?_⟩
  · intro hrec
    unfold dispatchPhase
    rw [hpu]
    simp only [List.foldl_cons, List.foldl_nil]
    unfold dispatchOne
    rw [hsp]
    simp only
    rw [if_pos hrec]
    exact ⟨rfl, rfl, trivial⟩
  · intro hrec
    unfold dispatchPhase
    rw [hpu]
    simp only [List.foldl_cons, List.foldl_nil]
    unfold dispatchOne
    rw [hsp]
    simp only
    rw [if_neg hrec, if_pos hop]
    exact ⟨rfl, lookup_setPlayer state.players uid _ sp hsp, trivial⟩
  · intro sp' grid userId pd now rel b hc hcond
    unfold processLegacyParsed
    rw [if_pos hcond]
    simp only [legacyAccept, hc, Option.getD_some]
    split <;> rfl

/-- The pending update used by the C10 witness states. -/
def w10Pu : PendingUpdate :=
  { userId := "A", opCode := OP_SERVER_POSITION, data := [], reliable := true }

/-- A single-player session whose only player has a pending update and a
set collision flag; with nobody else registered the recipient set is
empty. -/
def w10Solo : MatchState :=
  { label := "eco_conscience_global", maxPlayers := 50,
    players := [("A", { cxA with collided := true })],
    createdAt := 0,
    aoiGrid := aoiUpdatePlayer (createAOIGrid 200) "A" 0 0,
    pendingUpdates := [("A", w10Pu)] }

/-- The two-player session (C4 fixtures) with a pending update for "A". -/
def w10Pair : MatchState :=
  { label := "eco_conscience_global", maxPlayers := 50, players := cxPlayers,
    createdAt := 0, aoiGrid := cxGrid, pendingUpdates := [("A", w10Pu)] }

theorem w10Solo_recipients :
    recipientsFor w10Solo.players w10Solo.aoiGrid "A" { cxA with collided := true } = [] := by
  unfold recipientsFor
  rw [List.filter_eq_nil_iff]
  intro pid hmem
  by_cases hA : pid = "A"
  · subst hA
    simp
  · have hlk : List.lookup pid w10Solo.players = none := by
      have hb : (pid == "A") = false := by simpa using hA
      simp only [w10Solo]
      rw [List.lookup, hb]
      rfl
    simp only [Bool.and_eq_true, decide_eq_true_iff]
    rintro ⟨-, hmap⟩
    rw [hlk] at hmap
    simp at hmap

/-- C10 witness: with only one player, the dispatch phase broadcasts
nothing and leaves the player (and its collided flag) untouched while
clearing the pending-update map; with a nearby same-map recipient, the
v4 frame carrying the sender's collided flag is broadcast and the flag
cleared; and an accepted legacy update with `c = true` sets the flag. -/
theorem c10_collided_one_shot_witness :
    ((dispatchPhase w10Solo).1.players = w10Solo.players ∧
     (dispatchPhase w10Solo).2 = [] ∧
     (dispatchPhase w10Solo).1.pendingUpdates = []) ∧
    ((dispatchPhase w10Pair).2 =
       [{ opCode := OP_SERVER_POSITION,
          data := encodeServerPosition cxA.lastPosition.x cxA.lastPosition.y cxA.direction
            cxA.isRunning cxA.lastInputSequence cxA.collided,
          recipients := recipientsFor w10Pair.players w10Pair.aoiGrid "A" cxA,
          sender := "A", reliable := w10Pu.reliable }] ∧
     (dispatchPhase w10Pair).1.players.lookup "A" = some { cxA with collided := false }) ∧
    (processLegacyParsed cxA (createAOIGrid 200) "A"
        { x := 1, y := 1, d := none, r := none, c := some true } 100
        false).player.collided = true := by
  refine ⟨?_, ?_, ?_⟩
  · exact (c10_collided_one_shot w10Solo "A" { cxA with collided := true } w10Pu
      rfl rfl rfl).1 w10Solo_recipients
  · have h := (c10_collided_one_shot w10Pair "A" cxA w10Pu rfl rfl rfl).2.1
      (List.ne_nil_of_mem cxB_mem)
    exact ⟨h.1, h.2.1⟩
  · exact (c10_collided_one_shot w10Solo "A" { cxA with collided := true } w10Pu
      rfl rfl rfl).2.2 cxA (createAOIGrid 200) "A"
      { x := 1, y := 1, d := none, r := none, c := some true } 100 false true rfl
      (Or.inr (Or.inr (by norm_num [cxA, basePlayer, sqDist])))
